import Mathlib

/-!
# Verification of the barter-rs Portfolio Engine core

Shallow embedding of the portfolio engine of the `frostRed/barter-rs`
repository: the signal reconciliation state machine
(`src/portfolio/portfolio.rs`), the default order allocator
(`src/portfolio/allocator.rs`), the default risk evaluator
(`src/portfolio/risk.rs`), and the two repository backends
(`src/portfolio/repository/in_memory.rs`, `src/portfolio/repository/redis.rs`).

Modelling conventions:
* `f64` values are modelled as exact rationals (`ℚ`); the accounting and
  allocation formulas of the source are plain arithmetic on those values.
* `Uuid`, `Exchange`, `Instrument` and timestamps are modelled as `String`
  and `Int` identifiers: the code only moves them around and concatenates
  them into keys.
* Fallible Rust functions returning `Result` are modelled with `Except`;
  the `unreachable!` macro of `update_from_fill` is modelled by the
  distinguished value `PortfolioError.panicUnreachable`.
* The `Position` entity lives in `src/portfolio/position.rs`, which is not
  part of the source snapshot; its operations are modelled from the spec
  (section 4.1) and are marked as such below.
-/

namespace Barter

/-- Side of a position: `barter_integration::model::Side`. -/
inductive Side
  | Buy
  | Sell
deriving Repr, DecidableEq

/-- `strategy::Decision` (src/strategy/mod.rs). -/
inductive Decision
  | Long
  | CloseLong
  | Short
  | CloseShort
deriving Repr, DecidableEq

/-- `Decision::is_entry` (src/strategy/mod.rs). -/
def Decision.is_entry : Decision → Bool
  | .Short => true
  | .Long => true
  | _ => false

/-- `Decision::is_exit` (src/strategy/mod.rs). -/
def Decision.is_exit : Decision → Bool
  | .CloseLong => true
  | .CloseShort => true
  | _ => false

/-- `strategy::SuggestInfo` (src/strategy/mod.rs). -/
structure SuggestInfo where
  strength : ℚ
  fail_price : Option ℚ
  target_price : Option ℚ
  only_close_opposite : Bool
  re_enter : Bool
deriving Repr, DecidableEq

/-- `strategy::Suggest` (src/strategy/mod.rs). -/
inductive Suggest
  | SuggestLong (info : SuggestInfo)
  | SuggestShort (info : SuggestInfo)
deriving Repr, DecidableEq

/-- `execution::Fees`: exchange, slippage and network fees of a fill. -/
structure Fees where
  exchange : ℚ
  slippage : ℚ
  network : ℚ
deriving Repr, DecidableEq

/-- Total fees of a fill: `Fees::calculate_total_fees` summed over the
three components (spec section 4.1: `enter_fees_total = sum of
fill.fees.{exchange, slippage, network}`). -/
def Fees.total (f : Fees) : ℚ :=
  f.exchange + f.slippage + f.network

/-- `data::MarketMeta`: close price and time propagated from market data. -/
structure MarketMeta where
  close : ℚ
  time : Int
deriving Repr, DecidableEq

/-- `portfolio::Balance`: equity total and available cash of one engine. -/
structure Balance where
  time : Int
  total : ℚ
  available : ℚ
deriving Repr, DecidableEq

/-- Modelled from the spec (section 4.1 and section 3 "Position"):
the `Position` entity of `src/portfolio/position.rs`, which is absent from
the source snapshot.  Only the fields read or written by the code under
`src/` and by the spec formulas are included; the `meta` record is reduced
to its `update_time` field, the only meta field the code under `src/`
reads (`generate_exit_instrument_order` uses `position.meta.update_time`). -/
structure Position where
  instrument_id : String
  signal_id : String
  side : Side
  quantity : ℚ
  enter_value_gross : ℚ
  enter_fees_total : ℚ
  current_symbol_price : ℚ
  current_value_gross : ℚ
  unrealised_profit_loss : ℚ
  exit_value_gross : ℚ
  exit_fees_total : ℚ
  realised_profit_loss : ℚ
  update_time : Int
deriving Repr, DecidableEq

/-- `Position::determine_exit_decision` (spec section 4.1:
`Buy → CloseLong`, `Sell → CloseShort`). -/
def Position.determine_exit_decision (p : Position) : Decision :=
  match p.side with
  | .Buy => Decision.CloseLong
  | .Sell => Decision.CloseShort

/-- `execution::FillEvent` (spec section 6 wire shape). -/
structure FillEvent where
  time : Int
  exchange : String
  instrument : String
  signal_id : String
  decision : Decision
  quantity : ℚ
  fill_value_gross : ℚ
  fees : Fees
deriving Repr, DecidableEq

/-- `portfolio::OrderType`; the default is `Market` (spec section 4.5). -/
inductive OrderType
  | Market
deriving Repr, DecidableEq

/-- `portfolio::OrderEvent` (spec section 6 wire shape). -/
structure OrderEvent where
  signal_id : String
  time : Int
  exchange : String
  instrument : String
  market_meta : MarketMeta
  decision : Decision
  quantity : ℚ
  order_type : OrderType
deriving Repr, DecidableEq

/-- `strategy::SignalForceExit` (src/strategy/mod.rs). -/
structure SignalForceExit where
  time : Int
  exchange : String
  instrument : String
deriving Repr, DecidableEq

/-- `strategy::SignalInstrumentPositionsExit` (src/strategy/mod.rs). -/
structure SignalInstrumentPositionsExit where
  signal_id : String
  force_exit : SignalForceExit
deriving Repr, DecidableEq

/-- `strategy::Signal` (src/strategy/mod.rs). -/
structure Signal where
  signal_id : String
  time : Int
  exchange : String
  instrument : String
  suggest : Suggest
  market_meta : MarketMeta
deriving Repr, DecidableEq

/-- `event::Event`, restricted to the variants `update_from_fill`
produces: `PositionNew`, `PositionExit` and `Balance`. -/
inductive Event
  | PositionNew (position : Position)
  | PositionExit (position : Position)
  | BalanceUpdate (balance : Balance)
deriving Repr, DecidableEq

/-- Is this a `PositionNew` or `PositionExit` event? -/
def Event.isPositionEvent : Event → Bool
  | .PositionNew _ => true
  | .PositionExit _ => true
  | .BalanceUpdate _ => false

/-- Repository error taxonomy (src/portfolio/repository/error.rs, per the
spec's section 4.2 error list). -/
inductive RepositoryError
  | ReadError
  | WriteError
  | DeleteError
  | ExpectedDataNotPresent
  | JsonSerDeError
deriving Repr, DecidableEq

/-- `portfolio::error::PortfolioError`.  `panicUnreachable` is not a Rust
error value: it models the `unreachable!("close a not exist position")`
panic of `update_from_fill` (src/portfolio/portfolio.rs line 243). -/
inductive PortfolioError
  | BuilderIncomplete
  | RepositoryInteraction (inner : RepositoryError)
  | CannotEnterPositionWithExitFill
  | CannotExitPositionWithEntryFill
  | ExistingOppositePosition
  | panicUnreachable
deriving Repr, DecidableEq

/-! ## Signal reconciliation: `parse_signal_suggest` -/

/-- `parse_signal_suggest` (src/portfolio/portfolio.rs lines 585-629),
translated match arm by match arm.  The Rust function returns references
into the `Suggest`; the model returns the `SuggestInfo` by value. -/
def parse_signal_suggest (positions : List Position) (signal_suggest : Suggest) :
    Option (Decision × SuggestInfo) × Option (Decision × SuggestInfo) :=
  match signal_suggest, (positions.head?).map (fun p => p.side) with
  | .SuggestLong s, none => (none, some (Decision.Long, s))
  | .SuggestLong s, some Side.Buy =>
      (none, if s.re_enter then some (Decision.Long, s) else none)
  | .SuggestLong s, some Side.Sell =>
      (some (Decision.CloseShort, s),
       if s.only_close_opposite then none else some (Decision.Long, s))
  | .SuggestShort s, none => (none, some (Decision.Short, s))
  | .SuggestShort s, some Side.Buy =>
      (some (Decision.CloseLong, s),
       if s.only_close_opposite then none else some (Decision.Short, s))
  | .SuggestShort s, some Side.Sell =>
      (none, if s.re_enter then some (Decision.Short, s) else none)

/-- Modelled from the spec: the signal reconciliation table of spec
section 4.5, row by row.  Inputs are the suggest side (with its
`SuggestInfo` flags) and the side of the first open position
(`none` when there is no open position). -/
def suggestStateMachineTable (signal_suggest : Suggest) (current : Option Side) :
    Option (Decision × SuggestInfo) × Option (Decision × SuggestInfo) :=
  match signal_suggest, current with
  -- | Long  | None | —          | Long |
  | .SuggestLong s, none => (none, some (Decision.Long, s))
  -- | Long  | Buy  | —          | Long iff re_enter else — |
  | .SuggestLong s, some Side.Buy =>
      (none, if s.re_enter then some (Decision.Long, s) else none)
  -- | Long  | Sell | CloseShort | — iff only_close_opposite else Long |
  | .SuggestLong s, some Side.Sell =>
      (some (Decision.CloseShort, s),
       if s.only_close_opposite then none else some (Decision.Long, s))
  -- | Short | None | —          | Short |
  | .SuggestShort s, none => (none, some (Decision.Short, s))
  -- | Short | Sell | —          | Short iff re_enter else — |
  | .SuggestShort s, some Side.Sell =>
      (none, if s.re_enter then some (Decision.Short, s) else none)
  -- | Short | Buy  | CloseLong  | — iff only_close_opposite else Short |
  | .SuggestShort s, some Side.Buy =>
      (some (Decision.CloseLong, s),
       if s.only_close_opposite then none else some (Decision.Short, s))

/-! ## Default allocator -/

/-- `portfolio::allocator::DefaultAllocator` (src/portfolio/allocator.rs). -/
structure DefaultAllocator where
  default_order_value : ℚ
deriving Repr, DecidableEq

/-- The order size computed by `DefaultAllocator::allocate_order`
(src/portfolio/allocator.rs lines 49-50):
`(default_order_value / close * 10000).floor() / 10000`. -/
def allocOrderSize (default_order_value close : ℚ) : ℚ :=
  (⌊default_order_value / close * 10000⌋ : ℚ) / 10000

/-- `DefaultAllocator::allocate_order` (src/portfolio/allocator.rs lines
40-68).  The Rust method mutates `order.quantity` in place; the model
returns the updated order.  The repository and engine id parameters of
the trait are unused by the default implementation and omitted. -/
def DefaultAllocator.allocate_order (a : DefaultAllocator) (order : OrderEvent)
    (instrument_positions : List Position) (signal_suggest_info : SuggestInfo) :
    OrderEvent :=
  let default_order_size := allocOrderSize a.default_order_value order.market_meta.close
  match order.decision with
  | .Long =>
      { order with quantity := default_order_size * signal_suggest_info.strength }
  | .Short =>
      { order with quantity := -default_order_size * signal_suggest_info.strength }
  | _ =>
      { order with
          quantity := 0 - (instrument_positions.map (fun p => p.quantity)).sum }

/-- The quantity the spec's section 4.3 assigns per decision: the claim's
statement of the allocation rule, written independently of the allocator. -/
def allocatedQuantitySpec (a : DefaultAllocator) (order : OrderEvent)
    (instrument_positions : List Position) (signal_suggest_info : SuggestInfo) : ℚ :=
  let size := allocOrderSize a.default_order_value order.market_meta.close
  match order.decision with
  | .Long => size * signal_suggest_info.strength
  | .Short => -(size * signal_suggest_info.strength)
  | _ => -(instrument_positions.map (fun p => p.quantity)).sum

/-! ## Default risk evaluator -/

/-- `DefaultRisk::risk_too_high` (src/portfolio/risk.rs): always false. -/
def riskTooHigh (_ : OrderEvent) : Bool := false

/-- `DefaultRisk::evaluate_order` (src/portfolio/risk.rs lines 32-42). -/
def evaluateOrder (order : OrderEvent) : Option OrderEvent :=
  if riskTooHigh order then none
  else some { order with order_type := OrderType.Market }


/-! ## Association-list helpers

The in-memory repository (src/portfolio/repository/in_memory.rs) is a set
of `HashMap`s; the model uses association lists, with `alSet` as the
`HashMap::insert` upsert. -/

/-- Lookup in an association list (`HashMap::get`). -/
def alGet {α : Type} (l : List (String × α)) (k : String) : Option α :=
  (l.find? (fun kv => kv.fst = k)).map (fun kv => kv.snd)

/-- Upsert in an association list (`HashMap::insert`): replace the
binding of `k` when present, otherwise append a new binding. -/
def alSet {α : Type} (l : List (String × α)) (k : String) (v : α) :
    List (String × α) :=
  match l with
  | [] => [(k, v)]
  | kv :: rest =>
      if kv.fst = k then (k, v) :: rest else kv :: alSet rest k v

/-- Remove the binding of `k` from an association list
(`HashMap::remove`), returning the removed value (if any) and the rest. -/
def alRemove {α : Type} (l : List (String × α)) (k : String) :
    Option α × List (String × α) :=
  match l with
  | [] => (none, [])
  | kv :: rest =>
      if kv.fst = k then (some kv.snd, rest)
      else
        let (v, rest') := alRemove rest k
        (v, kv :: rest')

/-! ## Identifier derivation -/

/-- Modelled from the spec (section 6 "InstrumentId derivation", the
function itself lives in the absent src/portfolio/position.rs):
a deterministic string function of `(engine_id, exchange, instrument)`
that starts with the literal `"instrument_"`. -/
def determine_instrument_id (engine_id exchange instrument : String) : String :=
  "instrument_" ++ engine_id ++ "_" ++ exchange ++ "_" ++ instrument

/-- `determine_exited_positions_id` (src/portfolio/repository/mod.rs
lines 90-92): `"positions_exited_<engine_id>"`. -/
def determine_exited_positions_id (engine_id : String) : String :=
  "positions_exited_" ++ engine_id

/-- Modelled from the spec (section 4.2.2: balance is stored at
`"balance_<engine_id>"`; `Balance::balance_id` lives in the absent
src/portfolio/mod.rs). -/
def balance_id (engine_id : String) : String :=
  "balance_" ++ engine_id

/-- `MarketId::new(&exchange, &instrument)`: the canonical string of a
market (`barter_integration::model::MarketId`, outside the snapshot);
modelled as the concatenation of its two components. -/
def mkMarketId (exchange instrument : String) : String :=
  exchange ++ "|" ++ instrument

/-! ## In-memory repository (src/portfolio/repository/in_memory.rs)

`InMemoryRepository<Statistic>` holds
`open_positions : HashMap<InstrumentId, HashMap<Uuid, Position>>`,
`closed_positions : HashMap<String, Vec<Position>>`,
`current_balances : HashMap<BalanceId, Balance>` and
`statistics : HashMap<MarketId, Statistic>`.  The statistic type stays a
type parameter `S`, exactly as in the Rust. -/

structure InMemoryRepository (S : Type) where
  open_positions : List (String × List (String × Position))
  closed_positions : List (String × List Position)
  current_balances : List (String × Balance)
  statistics : List (String × S)
deriving DecidableEq

/-- The empty repository (`InMemoryRepository::new`). -/
def InMemoryRepository.new (S : Type) : InMemoryRepository S :=
  { open_positions := [], closed_positions := [],
    current_balances := [], statistics := [] }

/-- `InMemoryRepository::set_open_position` (in_memory.rs lines 29-41):
nested upsert by `position.instrument_id`, then `position.signal_id`. -/
def InMemoryRepository.set_open_position {S : Type}
    (repo : InMemoryRepository S) (position : Position) : InMemoryRepository S :=
  let inner := (alGet repo.open_positions position.instrument_id).getD []
  { repo with
      open_positions :=
        alSet repo.open_positions position.instrument_id
          (alSet inner position.signal_id position) }

/-- `InMemoryRepository::get_open_instrument_positions` (in_memory.rs
lines 43-52): all positions of one instrument, in map-value order. -/
def InMemoryRepository.get_open_instrument_positions {S : Type}
    (repo : InMemoryRepository S) (instrument_id : String) : List Position :=
  ((alGet repo.open_positions instrument_id).getD []).map (fun kv => kv.snd)

/-- Modelled from the spec (section 4.2
`remove_instrument_positions(instrument_id) → [Position]`: "removes and
returns all positions for the instrument; empty result is allowed, not an
error").  `update_from_fill` calls this repository method, but the
in-memory backend in the snapshot predates it (the redis backend's
`remove_positions`, redis.rs lines 108-119, has the same semantics:
read the instrument's positions, delete them, return them). -/
def InMemoryRepository.remove_instrument_positions {S : Type}
    (repo : InMemoryRepository S) (instrument_id : String) :
    List Position × InMemoryRepository S :=
  let removed := alRemove repo.open_positions instrument_id
  (((removed.fst).getD []).map (fun kv => kv.snd),
   { repo with open_positions := removed.snd })

/-- `InMemoryRepository::set_exited_position` (in_memory.rs lines
105-120): push onto the per-engine closed-positions list. -/
def InMemoryRepository.set_exited_position {S : Type}
    (repo : InMemoryRepository S) (engine_id : String) (position : Position) :
    InMemoryRepository S :=
  let key := determine_exited_positions_id engine_id
  let existing := alGet repo.closed_positions key
  { repo with
      closed_positions :=
        match existing with
        | none => alSet repo.closed_positions key [position]
        | some closed => alSet repo.closed_positions key (closed ++ [position]) }

/-- `InMemoryRepository::get_exited_positions` (in_memory.rs lines
122-128). -/
def InMemoryRepository.get_exited_positions {S : Type}
    (repo : InMemoryRepository S) (engine_id : String) : List Position :=
  (alGet repo.closed_positions (determine_exited_positions_id engine_id)).getD []

/-- `InMemoryRepository::set_balance` (in_memory.rs lines 132-136). -/
def InMemoryRepository.set_balance {S : Type}
    (repo : InMemoryRepository S) (engine_id : String) (balance : Balance) :
    InMemoryRepository S :=
  { repo with
      current_balances := alSet repo.current_balances (balance_id engine_id) balance }

/-- `InMemoryRepository::get_balance` (in_memory.rs lines 138-143);
`none` models the `ExpectedDataNotPresentError` case. -/
def InMemoryRepository.get_balance {S : Type}
    (repo : InMemoryRepository S) (engine_id : String) : Option Balance :=
  alGet repo.current_balances (balance_id engine_id)

/-- `InMemoryRepository::set_statistics` (in_memory.rs lines 147-153). -/
def InMemoryRepository.set_statistics {S : Type}
    (repo : InMemoryRepository S) (market_id : String) (statistic : S) :
    InMemoryRepository S :=
  { repo with statistics := alSet repo.statistics market_id statistic }

/-- `InMemoryRepository::get_statistics` (in_memory.rs lines 156-161);
`none` models the `ExpectedDataNotPresentError` case. -/
def InMemoryRepository.get_statistics {S : Type}
    (repo : InMemoryRepository S) (market_id : String) : Option S :=
  alGet repo.statistics market_id

/-! ## Redis repository model (src/portfolio/repository/redis.rs)

The external backend is a string-keyed store.  Serialization
(`serde_json`) is modelled as the identity: a stored value is either one
serialized `Position` (a Redis string) or a Redis list of serialized
`Position`s. -/

/-- A value held at a Redis key, for the keys the position handler touches. -/
inductive RedisValue
  | str (position : Position)
  | list (positions : List Position)
deriving Repr, DecidableEq

/-- The Redis key space. -/
abbrev RedisStore := List (String × RedisValue)

/-- Redis glob-style matching as used by the `KEYS` command, for the `*`
(any sequence) and `?` (any one character) wildcards; every other pattern
character matches itself.  (Redis also supports `[...]` classes and `\\`
escapes; no key or pattern in this development contains those.)  The
recursion is driven by a fuel counter so the function stays structurally
recursive; every step consumes a pattern or subject character, so
`|pattern| + |subject| + 1` units of fuel always suffice. -/
def globMatchFuel : Nat → List Char → List Char → Bool
  | 0, _, _ => false
  | _ + 1, [], [] => true
  | fuel + 1, '*' :: ps, [] => globMatchFuel fuel ps []
  | fuel + 1, '*' :: ps, c :: ss =>
      globMatchFuel fuel ps (c :: ss) || globMatchFuel fuel ('*' :: ps) ss
  | fuel + 1, '?' :: ps, _ :: ss => globMatchFuel fuel ps ss
  | fuel + 1, p :: ps, c :: ss => (p == c) && globMatchFuel fuel ps ss
  | _ + 1, _, _ => false

/-- Redis glob matching with sufficient fuel. -/
def globMatch (pattern subject : List Char) : Bool :=
  globMatchFuel (pattern.length + subject.length + 1) pattern subject

/-- The Redis `KEYS pattern` command: every key of the store matching the
glob pattern. -/
def redisKeysCmd (store : RedisStore) (pattern : String) : List String :=
  (store.map (fun kv => kv.fst)).filter (fun k => globMatch pattern.toList k.toList)

/-- `RedisRepository::set_open_position` (redis.rs lines 47-56): `SET` of
the serialized position at key `"<instrument_id>_<signal_id>"`. -/
def redis_set_open_position (store : RedisStore) (position : Position) : RedisStore :=
  alSet store (position.instrument_id ++ "_" ++ position.signal_id)
    (RedisValue.str position)

/-- One `conn.get::<String>` of redis.rs line 68: `GET` of a key expected
to hold a serialized position.  A missing key (nil) or a list value
(WRONGTYPE) both surface as errors, which line 68 maps to `ReadError`. -/
def redisGetPositionString (store : RedisStore) (key : String) :
    Except RepositoryError Position :=
  match alGet store key with
  | some (RedisValue.str p) => .ok p
  | some (RedisValue.list _) => .error RepositoryError.ReadError
  | none => .error RepositoryError.ReadError

/-- The loop of redis.rs lines 67-71: `GET` each key in turn. -/
def redisGetPositions (store : RedisStore) : List String →
    Except RepositoryError (List Position)
  | [] => .ok []
  | k :: rest =>
    match redisGetPositionString store k, redisGetPositions store rest with
    | .ok p, .ok ps => .ok (p :: ps)
    | .error e, _ => .error e
    | _, .error e => .error e

/-- `RedisRepository::get_open_instrument_positions` (redis.rs lines
58-74): `conn.keys(instrument_id)` — the instrument id string itself is
the `KEYS` pattern, with no wildcard appended — then `GET` each returned
key. -/
def redis_get_open_instrument_positions (store : RedisStore)
    (instrument_id : String) : Except RepositoryError (List Position) :=
  redisGetPositions store (redisKeysCmd store instrument_id)

/-- `RedisRepository::set_exited_position` (redis.rs lines 121-132):
`LPUSH` of the serialized position onto the per-engine list.  `LPUSH`
prepends; on a key holding a plain string it fails (WRONGTYPE), which
line 131 maps to `WriteError`. -/
def redis_set_exited_position (store : RedisStore) (engine_id : String)
    (position : Position) : Except RepositoryError RedisStore :=
  let key := determine_exited_positions_id engine_id
  match alGet store key with
  | some (RedisValue.str _) => .error RepositoryError.WriteError
  | some (RedisValue.list ps) =>
      .ok (alSet store key (RedisValue.list (position :: ps)))
  | none => .ok (alSet store key (RedisValue.list [position]))

/-- `RedisRepository::get_exited_positions` (redis.rs lines 134-145):
`GET` of the per-engine key.  A missing key (nil) converts to an empty
`Vec<String>`; a list value makes `GET` fail with WRONGTYPE, whose
`TypeError` kind the `or_else` of lines 137-140 turns into an empty
`Vec<String>`; a plain string converts to a one-element `Vec<String>`,
each element then parsed as a `Position`. -/
def redis_get_exited_positions (store : RedisStore) (engine_id : String) :
    Except RepositoryError (List Position) :=
  match alGet store (determine_exited_positions_id engine_id) with
  | none => .ok []
  | some (RedisValue.list _) => .ok []
  | some (RedisValue.str p) => .ok [p]

/-! ## Position lifecycle (modelled from the spec, section 4.1) -/

/-- Modelled from the spec (section 4.1 `enter(engine_id, fill)`; the
code lives in the absent src/portfolio/position.rs): fails with
`CannotEnterPositionWithExitFill` on an exit decision; `side` from the
sign of `fill.quantity` (the system never produces zero-quantity fills);
`enter_value_gross = fill.fill_value_gross`; `enter_fees_total` is the
fee sum; `current_*` mirrors `enter_*`;
`unrealised_profit_loss = -2 × enter_fees_total`. -/
def Position.enter (engine_id : String) (fill : FillEvent) :
    Except PortfolioError Position :=
  if fill.decision.is_exit then .error PortfolioError.CannotEnterPositionWithExitFill
  else
    let fees := fill.fees.total
    .ok
      { instrument_id := determine_instrument_id engine_id fill.exchange fill.instrument
        signal_id := fill.signal_id
        side := if 0 < fill.quantity then Side.Buy else Side.Sell
        quantity := fill.quantity
        enter_value_gross := fill.fill_value_gross
        enter_fees_total := fees
        current_symbol_price := fill.fill_value_gross / |fill.quantity|
        current_value_gross := fill.fill_value_gross
        unrealised_profit_loss := -2 * fees
        exit_value_gross := 0
        exit_fees_total := 0
        realised_profit_loss := 0
        update_time := fill.time }

/-- Modelled from the spec (section 4.1 `exit(balance, fill)`): fails
with `CannotExitPositionWithEntryFill` on an entry decision; sets the
`exit_*` snapshot and `realised_profit_loss` with the directional sign
rule, counting actual fees of both sides once each (no doubling).  The
balance argument is only stamped into position metadata the model does
not carry. -/
def Position.exit (position : Position) (_balanceAtExit : Balance)
    (fill : FillEvent) : Except PortfolioError Position :=
  if fill.decision.is_entry then .error PortfolioError.CannotExitPositionWithEntryFill
  else
    let exit_fees := fill.fees.total
    .ok
      { position with
          exit_value_gross := fill.fill_value_gross
          exit_fees_total := exit_fees
          realised_profit_loss :=
            match position.side with
            | Side.Buy =>
                fill.fill_value_gross - position.enter_value_gross
                  - (position.enter_fees_total + exit_fees)
            | Side.Sell =>
                position.enter_value_gross - fill.fill_value_gross
                  - (position.enter_fees_total + exit_fees)
          update_time := fill.time }

/-! ## Portfolio engine (src/portfolio/portfolio.rs)

The engine is modelled against the in-memory repository and the default
allocator and risk evaluator.  `Utc::now()` is an injectable `now`
parameter (spec section 9 "Determinism / time"). -/

/-- `MetaPortfolio::no_cash_to_enter_new_position` (portfolio.rs lines
454-459): `balance.available == 0.0`. -/
def no_cash_to_enter_new_position {S : Type} (repo : InMemoryRepository S)
    (engine_id : String) : Except PortfolioError Bool :=
  match repo.get_balance engine_id with
  | some balance => .ok (decide (balance.available = 0))
  | none => .error (PortfolioError.RepositoryInteraction
      RepositoryError.ExpectedDataNotPresent)

/-- `MetaPortfolio::generate_order` (portfolio.rs lines 122-173). -/
def generateOrder {S : Type} (alloc : DefaultAllocator) (engine_id : String)
    (now : Int) (repo : InMemoryRepository S) (signal : Signal) :
    Except PortfolioError (Option SignalInstrumentPositionsExit × Option OrderEvent) :=
  let instrument_id := determine_instrument_id engine_id signal.exchange signal.instrument
  let positions := repo.get_open_instrument_positions instrument_id
  -- past the cash guard: parse the suggest, build/allocate/evaluate the order
  let proceed : Except PortfolioError
      (Option SignalInstrumentPositionsExit × Option OrderEvent) :=
    let (close_signal, open_signal) := parse_signal_suggest positions signal.suggest
    let signal_force_exit := close_signal.map (fun _ =>
      { signal_id := signal.signal_id
        force_exit :=
          { time := signal.time
            exchange := signal.exchange
            instrument := signal.instrument } })
    .ok (signal_force_exit,
      open_signal.bind (fun ds =>
        let order : OrderEvent :=
          { signal_id := signal.signal_id
            time := now
            exchange := signal.exchange
            instrument := signal.instrument
            market_meta := signal.market_meta
            decision := ds.fst
            quantity := 0
            order_type := OrderType.Market }
        let order := alloc.allocate_order order positions ds.snd
        evaluateOrder order))
  if positions.isEmpty then
    match no_cash_to_enter_new_position repo engine_id with
    | .error e => .error e
    | .ok true => .ok (none, none)
    | .ok false => proceed
  else proceed

/-- `MetaPortfolio::generate_exit_instrument_order` (portfolio.rs lines
175-214).  The Rust method takes `&mut self` but performs no repository
write; the model threads the repository through unchanged to make that
visible. -/
def generateExitInstrumentOrder {S : Type} (engine_id : String) (now : Int)
    (repo : InMemoryRepository S) (signal : SignalInstrumentPositionsExit) :
    Except PortfolioError (List OrderEvent × InMemoryRepository S) :=
  let instrument_id := determine_instrument_id engine_id
    signal.force_exit.exchange signal.force_exit.instrument
  let positions := repo.get_open_instrument_positions instrument_id
  if positions.isEmpty then .ok ([], repo)
  else
    .ok (positions.map (fun position =>
      { signal_id := signal.signal_id
        time := now
        exchange := signal.force_exit.exchange
        instrument := signal.force_exit.instrument
        market_meta :=
          { close := position.current_symbol_price
            time := position.update_time }
        decision := position.determine_exit_decision
        quantity := 0 - position.quantity
        order_type := OrderType.Market }), repo)

/-- The balance mutation of the exit loop of `update_from_fill`
(portfolio.rs lines 251-256): `available += enter_value_gross +
realised_profit_loss + enter_fees_total; total += realised_profit_loss`,
applied to the just-exited position. -/
def exitBalanceStep (balance : Balance) (position : Position) : Balance :=
  { balance with
      available := balance.available + position.enter_value_gross
        + position.realised_profit_loss + position.enter_fees_total
      total := balance.total + position.realised_profit_loss }

/-- The `for mut position in positions` loop of the exit branch of
`update_from_fill` (portfolio.rs lines 246-268): exit each position,
update the balance, update and persist the market statistic, persist the
exited position, and collect one `PositionExit` event per position in
order. -/
def processExits {S : Type} (statUpdate : S → Position → S)
    (engine_id market_id : String) (fill : FillEvent) :
    List Position → Balance → InMemoryRepository S →
    Except PortfolioError (List Event × Balance × InMemoryRepository S)
  | [], balance, repo => .ok ([], balance, repo)
  | position :: rest, balance, repo =>
    match position.exit balance fill with
    | .error e => .error e
    | .ok position_exit =>
      let balance' := exitBalanceStep balance position_exit
      match repo.get_statistics market_id with
      | none => .error (PortfolioError.RepositoryInteraction
          RepositoryError.ExpectedDataNotPresent)
      | some stats =>
        let repo := repo.set_statistics market_id (statUpdate stats position_exit)
        let repo := repo.set_exited_position engine_id position_exit
        match processExits statUpdate engine_id market_id fill rest balance' repo with
        | .error e => .error e
        | .ok (events, balance'', repo') =>
            .ok (Event.PositionExit position_exit :: events, balance'', repo')

/-- `MetaPortfolio::update_from_fill` (portfolio.rs lines 225-301).  The
statistic capability is the opaque update function `statUpdate`
(`PositionSummariser::update`). -/
def updateFromFill {S : Type} (statUpdate : S → Position → S)
    (engine_id : String) (repo : InMemoryRepository S) (fill : FillEvent) :
    Except PortfolioError (List Event × InMemoryRepository S) :=
  match repo.get_balance engine_id with
  | none => .error (PortfolioError.RepositoryInteraction
      RepositoryError.ExpectedDataNotPresent)
  | some balance0 =>
    let balance := { balance0 with time := fill.time }
    let instrument_id := determine_instrument_id engine_id fill.exchange fill.instrument
    match fill.decision with
    | Decision.CloseLong | Decision.CloseShort =>
      let removed := repo.remove_instrument_positions instrument_id
      let positions := removed.fst
      let repo := removed.snd
      if positions.isEmpty then .error PortfolioError.panicUnreachable
      else
        let market_id := mkMarketId fill.exchange fill.instrument
        match processExits statUpdate engine_id market_id fill positions balance repo with
        | .error e => .error e
        | .ok (events, balance, repo) =>
            .ok (events ++ [Event.BalanceUpdate balance],
                 repo.set_balance engine_id balance)
    | Decision.Long | Decision.Short =>
      let positions := repo.get_open_instrument_positions instrument_id
      let blocked :=
        match positions.head? with
        | some p =>
            (p.side == Side.Sell && fill.decision == Decision.Long)
              || (p.side == Side.Buy && fill.decision == Decision.Short)
        | none => false
      if blocked then .error PortfolioError.ExistingOppositePosition
      else
        match Position.enter engine_id fill with
        | .error e => .error e
        | .ok position =>
          let balance :=
            { balance with
                available := balance.available
                  + (-position.enter_value_gross - position.enter_fees_total) }
          let repo := repo.set_open_position position
          .ok ([Event.PositionNew position, Event.BalanceUpdate balance],
               repo.set_balance engine_id balance)

/-! ## Derived observations used by the claims -/

/-- The event-order shape claimed for `update_from_fill` results: the
last element exists and is a `Balance` event, and everything before it is
a `PositionNew` or `PositionExit` event (hence the `Balance` event is
unique). -/
def eventsWellOrdered (events : List Event) : Bool :=
  (events.dropLast.all (fun e => e.isPositionEvent)) &&
    (match events.getLast? with
     | some (Event.BalanceUpdate _) => true
     | _ => false)

/-- Sum of `realised_profit_loss` over the `PositionExit` events of a list. -/
def exitEventsRealised (events : List Event) : ℚ :=
  (events.map (fun e =>
    match e with
    | Event.PositionExit p => p.realised_profit_loss
    | _ => 0)).sum

/-- Sum of `enter_value_gross + realised_profit_loss + enter_fees_total`
over the `PositionExit` events of a list: the claimed available-cash
credit of the exit branch. -/
def exitEventsCashCredit (events : List Event) : ℚ :=
  (events.map (fun e =>
    match e with
    | Event.PositionExit p =>
        p.enter_value_gross + p.realised_profit_loss + p.enter_fees_total
    | _ => 0)).sum

/-- Extract the payload of a successful `Except`, with a fallback. -/
def exOk {E A : Type} (x : Except E A) (fallback : A) : A :=
  match x with
  | .ok a => a
  | .error _ => fallback

/-! ## Concrete inputs for witnesses and counterexamples -/

/-- The statistic instance used in concrete runs: a bare exit counter
standing in for the opaque `Statistic` capability. -/
def natStatUpdate : Nat → Position → Nat := fun n _ => n + 1

/-- Instrument id of the concrete market used in the scenarios. -/
def sampleIid : String := determine_instrument_id "eng" "binance" "btc_usdt"

/-- A freshly entered position on the sample market (spec section 8
scenario 2 values unless overridden). -/
def mkSamplePosition (sid : String) (side : Side) (qty evg eft : ℚ) : Position :=
  { instrument_id := sampleIid
    signal_id := sid
    side := side
    quantity := qty
    enter_value_gross := evg
    enter_fees_total := eft
    current_symbol_price := 100
    current_value_gross := evg
    unrealised_profit_loss := -2 * eft
    exit_value_gross := 0
    exit_fees_total := 0
    realised_profit_loss := 0
    update_time := 0 }

/-- Starting balance of the concrete scenarios (spec section 8). -/
def sampleBalance : Balance := { time := 0, total := 200, available := 200 }

/-- C3 input: repository whose stored balance has zero available cash. -/
def c3repo : InMemoryRepository Nat :=
  (InMemoryRepository.new Nat).set_balance "eng"
    { time := 0, total := 100, available := 0 }

/-- C3 input: a long signal on the sample market. -/
def c3signal : Signal :=
  { signal_id := "s3"
    time := 0
    exchange := "binance"
    instrument := "btc_usdt"
    suggest := Suggest.SuggestLong
      { strength := 1, fail_price := none, target_price := none
        only_close_opposite := true, re_enter := false }
    market_meta := { close := 100, time := 0 } }

/-- Entry-scenario repository: funded balance, no open positions. -/
def c2repo : InMemoryRepository Nat :=
  (InMemoryRepository.new Nat).set_balance "eng" sampleBalance

/-- Entry-scenario fill (spec section 8 scenario 2). -/
def c2fill : FillEvent :=
  { time := 1, exchange := "binance", instrument := "btc_usdt"
    signal_id := "s2", decision := Decision.Long, quantity := 1
    fill_value_gross := 100, fees := { exchange := 1, slippage := 1, network := 1 } }

/-- Entry-scenario run of `update_from_fill`. -/
def c2run : Except PortfolioError (List Event × InMemoryRepository Nat) :=
  updateFromFill natStatUpdate "eng" c2repo c2fill

/-- Entry-scenario resulting events and repository. -/
def c2result : List Event × InMemoryRepository Nat := exOk c2run ([], c2repo)

/-- Entry-scenario resulting balance. -/
def c2balanceAfter : Balance := (c2result.snd.get_balance "eng").getD sampleBalance

/-- Entry-scenario entered position. -/
def c2position : Position :=
  exOk (Position.enter "eng" c2fill) (mkSamplePosition "s2" Side.Buy 1 0 0)

/-- Exit-scenario repository: one open Buy position, statistic present,
balance of spec section 8 scenario 4. -/
def cExitRepo : InMemoryRepository Nat :=
  (((InMemoryRepository.new Nat).set_balance "eng"
      { time := 0, total := 200, available := 97 }).set_statistics
      (mkMarketId "binance" "btc_usdt") 0).set_open_position
    (mkSamplePosition "s2" Side.Buy 1 100 3)

/-- Exit-scenario fill (spec section 8 scenario 4). -/
def cExitFill : FillEvent :=
  { time := 2, exchange := "binance", instrument := "btc_usdt"
    signal_id := "s2", decision := Decision.CloseLong, quantity := -1
    fill_value_gross := 200, fees := { exchange := 1, slippage := 1, network := 1 } }

/-- Exit-scenario run of `update_from_fill`. -/
def cExitRun : Except PortfolioError (List Event × InMemoryRepository Nat) :=
  updateFromFill natStatUpdate "eng" cExitRepo cExitFill

/-- Exit-scenario resulting events and repository. -/
def cExitResult : List Event × InMemoryRepository Nat := exOk cExitRun ([], cExitRepo)

/-- Exit-scenario resulting balance. -/
def cExitBalanceAfter : Balance :=
  (cExitResult.snd.get_balance "eng").getD sampleBalance

/-- C6 counterexample repository: two open positions on the sample
instrument, the first on side Buy, the second on side Sell. -/
def c6repo : InMemoryRepository Nat :=
  (((InMemoryRepository.new Nat).set_balance "eng" sampleBalance).set_open_position
      (mkSamplePosition "sb" Side.Buy 1 100 3)).set_open_position
    (mkSamplePosition "ss" Side.Sell (-1) 100 3)

/-- C6 counterexample fill: a Long entry against `c6repo`. -/
def c6fill : FillEvent :=
  { time := 3, exchange := "binance", instrument := "btc_usdt"
    signal_id := "s6", decision := Decision.Long, quantity := 1
    fill_value_gross := 100, fees := { exchange := 1, slippage := 1, network := 1 } }

/-- C6 witness repository: a single open Sell position. -/
def c6wrepo : InMemoryRepository Nat :=
  ((InMemoryRepository.new Nat).set_balance "eng" sampleBalance).set_open_position
    (mkSamplePosition "ss" Side.Sell (-1) 100 3)

/-- C10 inputs: funded repository with no open positions. -/
def c10repo : InMemoryRepository Nat :=
  (InMemoryRepository.new Nat).set_balance "eng" sampleBalance

/-- C10 forced-exit token for the sample market. -/
def c10sig : SignalInstrumentPositionsExit :=
  { signal_id := "s10"
    force_exit := { time := 0, exchange := "binance", instrument := "btc_usdt" } }

/-- C10 exit fill for the sample market (no position is open for it). -/
def c10fill : FillEvent :=
  { time := 4, exchange := "binance", instrument := "btc_usdt"
    signal_id := "s10", decision := Decision.CloseLong, quantity := -1
    fill_value_gross := 200, fees := { exchange := 1, slippage := 1, network := 1 } }

/-- C8 input: a position as stored by the redis backend. -/
def c8pos : Position := mkSamplePosition "s8" Side.Buy 1 100 3

/-- C9 input position. -/
def c9pos : Position := mkSamplePosition "s9" Side.Buy 1 100 3

/-- C9: the redis store after `set_exited_position` on an empty store:
one list at the per-engine key, holding the pushed position. -/
def c9store : RedisStore :=
  [(determine_exited_positions_id "eng9", RedisValue.list [c9pos])]

/-- C6 counterexample run and its successful result. -/
def c6run : Except PortfolioError (List Event × InMemoryRepository Nat) :=
  updateFromFill natStatUpdate "eng" c6repo c6fill

/-- C6 counterexample result payload. -/
def c6result : List Event × InMemoryRepository Nat := exOk c6run ([], c6repo)

/-! # Theorems -/

/-! ### Association-list lemmas -/

theorem alGet_alSet_self {α : Type} (l : List (String × α)) (k : String) (v : α) :
    alGet (alSet l k v) k = some v := by
  induction l with
  | nil => simp [alGet, alSet]
  | cons kv rest ih =>
      by_cases h : kv.fst = k
      · simp [alSet, h, alGet]
      · simp only [alSet, if_neg h]
        simpa [alGet, List.find?_cons, h] using ih

theorem alRemove_fst_eq_alGet {α : Type} (l : List (String × α)) (k : String) :
    (alRemove l k).fst = alGet l k := by
  induction l with
  | nil => simp [alRemove, alGet]
  | cons kv rest ih =>
      by_cases h : kv.fst = k
      · simp [alRemove, h, alGet]
      · simp [alRemove, h, alGet, List.find?_cons] at ih ⊢
        exact ih

/-- `get_balance` after `set_balance` of the same engine id. -/
theorem get_balance_set_balance {S : Type} (repo : InMemoryRepository S)
    (engine_id : String) (balance : Balance) :
    (repo.set_balance engine_id balance).get_balance engine_id = some balance := by
  simp [InMemoryRepository.get_balance, InMemoryRepository.set_balance, alGet_alSet_self]

/-- C1 — `parse_signal_suggest` agrees with the spec section 4.5 state
machine table on every combination of suggest side, side of the first
open position, and `re_enter` / `only_close_opposite` flags. -/
theorem parse_signal_suggest_matches_table (positions : List Position) (sg : Suggest) :
    parse_signal_suggest positions sg
      = suggestStateMachineTable sg ((positions.head?).map (fun p => p.side)) := by
  rcases positions with _ | ⟨p, rest⟩
  · cases sg <;> rfl
  · cases sg <;> cases h : p.side <;>
      simp [parse_signal_suggest, suggestStateMachineTable, h]

/-- C4 — the default allocator writes `+size × strength` for `Long`,
`−size × strength` for `Short`, and `−Σ open_positions.quantity`
(strength ignored) for any exit decision, with
`size = floor((default_order_value / close) × 10000) / 10000`. -/
theorem default_allocator_quantity (a : DefaultAllocator) (order : OrderEvent)
    (instrument_positions : List Position) (info : SuggestInfo) :
    (a.allocate_order order instrument_positions info).quantity
      = allocatedQuantitySpec a order instrument_positions info := by
  cases h : order.decision <;>
    simp [DefaultAllocator.allocate_order, allocatedQuantitySpec, h]

/-- C5 — for positive order value and close price, the allocator's
truncated size never buys more than the configured order value and has
at most four fractional digits. -/
theorem default_allocator_size_bounds (v c : ℚ) (_hv : 0 < v) (hc : 0 < c) :
    allocOrderSize v c * c ≤ v ∧ ∃ n : ℤ, allocOrderSize v c * 10000 = (n : ℚ) := by
  constructor
  · have h1 : ((⌊v / c * 10000⌋ : ℤ) : ℚ) ≤ v / c * 10000 := Int.floor_le _
    have h2 : allocOrderSize v c ≤ v / c := by
      unfold allocOrderSize
      rw [div_le_iff₀ (by norm_num : (0 : ℚ) < 10000)]
      exact h1
    calc allocOrderSize v c * c ≤ v / c * c := mul_le_mul_of_nonneg_right h2 hc.le
      _ = v := div_mul_cancel₀ v hc.ne'
  · refine ⟨⌊v / c * 10000⌋, ?_⟩
    unfold allocOrderSize
    rw [div_mul_cancel₀ _ (by norm_num : (10000 : ℚ) ≠ 0)]

/-- C5 witness at `v = 1000`, `c = 100` (spec section 8 scenario 1). -/
theorem default_allocator_size_bounds_witness :
    (0 : ℚ) < 1000 ∧ (0 : ℚ) < 100 ∧
      (allocOrderSize 1000 100 * 100 ≤ 1000 ∧
        ∃ n : ℤ, allocOrderSize 1000 100 * 10000 = (n : ℚ)) :=
  ⟨by norm_num, by norm_num, default_allocator_size_bounds 1000 100 (by norm_num) (by norm_num)⟩

/-- C3 — the cash gate: with no open positions on the signal's
instrument and a stored balance whose available cash is zero,
`generate_order` returns `Ok((None, None))`. -/
theorem generate_order_cash_gate {S : Type} (alloc : DefaultAllocator)
    (engine_id : String) (now : Int) (repo : InMemoryRepository S)
    (signal : Signal) (b : Balance)
    (hpos : repo.get_open_instrument_positions
      (determine_instrument_id engine_id signal.exchange signal.instrument) = [])
    (hbal : repo.get_balance engine_id = some b)
    (hava : b.available = 0) :
    generateOrder alloc engine_id now repo signal = .ok (none, none) := by
  have hguard : no_cash_to_enter_new_position repo engine_id = .ok true := by
    simp [no_cash_to_enter_new_position, hbal, hava]
  simp [generateOrder, hpos, hguard]

/-- C3 witness: concrete zero-cash repository and long signal. -/
theorem generate_order_cash_gate_witness :
    generateOrder { default_order_value := 1000 } "eng" 0 c3repo c3signal
      = .ok (none, none) :=
  generate_order_cash_gate { default_order_value := 1000 } "eng" 0 c3repo c3signal
    { time := 0, total := 100, available := 0 } (by decide) (by decide) (by decide)

/-! ### `update_from_fill` helper lemmas -/

/-- Removing an instrument's positions returns exactly the positions a
lookup would have returned. -/
theorem remove_instrument_positions_fst {S : Type} (repo : InMemoryRepository S)
    (instrument_id : String) :
    (repo.remove_instrument_positions instrument_id).fst
      = repo.get_open_instrument_positions instrument_id := by
  simp [InMemoryRepository.remove_instrument_positions,
    InMemoryRepository.get_open_instrument_positions, alRemove_fst_eq_alGet]

/-- Shape of a successful exit loop: the collected events are all
`PositionExit` events, and the final balance accumulates exactly the
claimed per-position credits. -/
theorem processExits_ok_shape {S : Type} (statUpdate : S → Position → S)
    (engine_id market_id : String) (fill : FillEvent) :
    ∀ (ps : List Position) (b : Balance) (repo : InMemoryRepository S)
      (evs : List Event) (bf : Balance) (rf : InMemoryRepository S),
      processExits statUpdate engine_id market_id fill ps b repo = .ok (evs, bf, rf) →
      (∀ e ∈ evs, e.isPositionEvent = true) ∧
        bf.total = b.total + exitEventsRealised evs ∧
        bf.available = b.available + exitEventsCashCredit evs := by
  intro ps
  induction ps with
  | nil =>
      intro b repo evs bf rf h
      simp only [processExits, Except.ok.injEq, Prod.mk.injEq] at h
      obtain ⟨h1, h2, h3⟩ := h
      subst h1; subst h2
      simp [exitEventsRealised, exitEventsCashCredit]
  | cons p rest ih =>
      intro b repo evs bf rf h
      simp only [processExits] at h
      split at h
      · cases h
      · rename_i pexit hx
        split at h
        · cases h
        · rename_i stats hs
          split at h
          · cases h
          · rename_i evs0 bf0 rf0 hrec
            cases h
            obtain ⟨hall, htot, hava⟩ := ih _ _ _ _ _ hrec
            refine ⟨?_, ?_, ?_⟩
            · intro e he
              rcases List.mem_cons.mp he with he | he
              · subst he; rfl
              · exact hall e he
            · simp only [exitEventsRealised, List.map_cons, List.sum_cons] at *
              rw [htot]
              simp only [exitBalanceStep]
              ring
            · simp only [exitEventsCashCredit, List.map_cons, List.sum_cons] at *
              rw [hava]
              simp only [exitBalanceStep]
              ring

/-- Inversion of the exit branch of `update_from_fill`: a successful
call with an exit-decision fill decomposes into a successful exit loop
whose events are followed by exactly one `Balance` event, with the final
balance persisted. -/
theorem updateFromFill_exit_inv {S : Type} (statUpdate : S → Position → S)
    (engine_id : String) (repo : InMemoryRepository S) (fill : FillEvent)
    (evs : List Event) (repo' : InMemoryRepository S) (b : Balance)
    (hd : fill.decision.is_exit = true)
    (hbal : repo.get_balance engine_id = some b)
    (hok : updateFromFill statUpdate engine_id repo fill = .ok (evs, repo')) :
    ∃ (evs0 : List Event) (bf : Balance) (rf : InMemoryRepository S),
      processExits statUpdate engine_id (mkMarketId fill.exchange fill.instrument) fill
          (repo.remove_instrument_positions
            (determine_instrument_id engine_id fill.exchange fill.instrument)).fst
          { b with time := fill.time }
          (repo.remove_instrument_positions
            (determine_instrument_id engine_id fill.exchange fill.instrument)).snd
        = .ok (evs0, bf, rf) ∧
      evs = evs0 ++ [Event.BalanceUpdate bf] ∧
      repo' = rf.set_balance engine_id bf := by
  cases hfd : fill.decision
  case Long => simp [hfd, Decision.is_exit] at hd
  case Short => simp [hfd, Decision.is_exit] at hd
  all_goals
    simp only [updateFromFill, hbal, hfd] at hok
  all_goals
    split at hok
  · cases hok
  · split at hok
    · cases hok
    · rename_i evs0 bf rf hrec
      cases hok
      exact ⟨evs0, bf, rf, hrec, rfl, rfl⟩
  · cases hok
  · split at hok
    · cases hok
    · rename_i evs0 bf rf hrec
      cases hok
      exact ⟨evs0, bf, rf, hrec, rfl, rfl⟩

/-- Inversion of the entry branch of `update_from_fill`: a successful
call with an entry-decision fill enters one position, emits exactly
`[PositionNew, Balance]`, and persists the debited balance. -/
theorem updateFromFill_entry_inv {S : Type} (statUpdate : S → Position → S)
    (engine_id : String) (repo : InMemoryRepository S) (fill : FillEvent)
    (evs : List Event) (repo' : InMemoryRepository S) (b : Balance)
    (hd : fill.decision.is_entry = true)
    (hbal : repo.get_balance engine_id = some b)
    (hok : updateFromFill statUpdate engine_id repo fill = .ok (evs, repo')) :
    ∃ (p : Position),
      Position.enter engine_id fill = .ok p ∧
      evs = [Event.PositionNew p,
        Event.BalanceUpdate
          { b with
              time := fill.time
              available := b.available + (-p.enter_value_gross - p.enter_fees_total) }] ∧
      repo' = (repo.set_open_position p).set_balance engine_id
          { b with
              time := fill.time
              available := b.available + (-p.enter_value_gross - p.enter_fees_total) } := by
  cases hfd : fill.decision
  case CloseLong => simp [hfd, Decision.is_entry] at hd
  case CloseShort => simp [hfd, Decision.is_entry] at hd
  all_goals
    simp only [updateFromFill, hbal, hfd] at hok
  all_goals
    split at hok
  · cases hok
  · split at hok
    · cases hok
    · rename_i p hpe
      cases hok
      exact ⟨p, hpe, rfl, rfl⟩
  · cases hok
  · split at hok
    · cases hok
    · rename_i p hpe
      cases hok
      exact ⟨p, hpe, rfl, rfl⟩

/-- The claimed event shape holds for a block of position events
followed by one balance event. -/
theorem eventsWellOrdered_append (evs : List Event) (b : Balance)
    (h : ∀ e ∈ evs, e.isPositionEvent = true) :
    eventsWellOrdered (evs ++ [Event.BalanceUpdate b]) = true := by
  simp only [eventsWellOrdered, List.dropLast_concat, List.getLast?_concat,
    List.all_eq_true, Bool.and_eq_true]
  exact ⟨h, trivial⟩

/-- C2 — double-entry accounting of `update_from_fill`.
First conjunct: `exitBalanceStep` is the balance mutation the exit loop
applies once per exited position, and for every balance and exited
position it moves `total` by exactly `realised_profit_loss` and
`available` by exactly `enter_value_gross + realised_profit_loss +
enter_fees_total`.  Second conjunct: through a whole successful
exit-decision `update_from_fill`, the persisted balance deltas are the
sums of those per-position amounts over the emitted `PositionExit`
events.  Third conjunct: a successful entry-decision `update_from_fill`
moves `available` by `-enter_value_gross - enter_fees_total` of the
entered position. -/
theorem update_from_fill_balance_deltas {S : Type} (statUpdate : S → Position → S)
    (engine_id : String) :
    (∀ (balance : Balance) (position : Position),
        (exitBalanceStep balance position).total - balance.total
            = position.realised_profit_loss ∧
          (exitBalanceStep balance position).available - balance.available
            = position.enter_value_gross + position.realised_profit_loss
                + position.enter_fees_total) ∧
    (∀ (repo : InMemoryRepository S) (fill : FillEvent) (evs : List Event)
        (repo' : InMemoryRepository S) (b b' : Balance),
        fill.decision.is_exit = true →
        repo.get_balance engine_id = some b →
        updateFromFill statUpdate engine_id repo fill = .ok (evs, repo') →
        repo'.get_balance engine_id = some b' →
        b'.total - b.total = exitEventsRealised evs ∧
          b'.available - b.available = exitEventsCashCredit evs) ∧
    (∀ (repo : InMemoryRepository S) (fill : FillEvent) (evs : List Event)
        (repo' : InMemoryRepository S) (b b' : Balance) (p : Position),
        fill.decision.is_entry = true →
        repo.get_balance engine_id = some b →
        Position.enter engine_id fill = .ok p →
        updateFromFill statUpdate engine_id repo fill = .ok (evs, repo') →
        repo'.get_balance engine_id = some b' →
        b'.available - b.available = -p.enter_value_gross - p.enter_fees_total) := by
  refine ⟨?_, ?_, ?_⟩
  · intro balance position
    constructor <;> (simp only [exitBalanceStep]; ring)
  · intro repo fill evs repo' b b' hd hbal hok hbal'
    obtain ⟨evs0, bf, rf, hrec, hevs, hrepo'⟩ :=
      updateFromFill_exit_inv statUpdate engine_id repo fill evs repo' b hd hbal hok
    subst hevs
    subst hrepo'
    rw [get_balance_set_balance] at hbal'
    injection hbal' with hbal'
    subst hbal'
    obtain ⟨-, htot, hava⟩ :=
      processExits_ok_shape statUpdate engine_id
        (mkMarketId fill.exchange fill.instrument) fill _ _ _ _ _ _ hrec
    constructor
    · rw [htot]
      simp [exitEventsRealised, List.map_append, List.sum_append]
    · rw [hava]
      simp [exitEventsCashCredit, List.map_append, List.sum_append]
  · intro repo fill evs repo' b b' p hd hbal hp hok hbal'
    obtain ⟨q, hq, hevs, hrepo'⟩ :=
      updateFromFill_entry_inv statUpdate engine_id repo fill evs repo' b hd hbal hok
    rw [hp] at hq
    injection hq with hq
    subst hq
    subst hrepo'
    rw [get_balance_set_balance] at hbal'
    injection hbal' with hbal'
    subst hbal'
    simp

/-- C2 witness: the spec section 8 entry (scenario 2) and exit
(scenario 4) runs, with the per-position step instantiated at the exit
scenario's position. -/
theorem update_from_fill_balance_deltas_witness :
    ((exitBalanceStep sampleBalance (mkSamplePosition "s2" Side.Buy 1 100 3)).total
          - sampleBalance.total
        = (mkSamplePosition "s2" Side.Buy 1 100 3).realised_profit_loss ∧
      (exitBalanceStep sampleBalance (mkSamplePosition "s2" Side.Buy 1 100 3)).available
          - sampleBalance.available
        = (mkSamplePosition "s2" Side.Buy 1 100 3).enter_value_gross
            + (mkSamplePosition "s2" Side.Buy 1 100 3).realised_profit_loss
            + (mkSamplePosition "s2" Side.Buy 1 100 3).enter_fees_total) ∧
    (cExitBalanceAfter.total
          - ({ time := 0, total := 200, available := 97 } : Balance).total
        = exitEventsRealised cExitResult.fst ∧
      cExitBalanceAfter.available
          - ({ time := 0, total := 200, available := 97 } : Balance).available
        = exitEventsCashCredit cExitResult.fst) ∧
    c2balanceAfter.available - sampleBalance.available
        = -c2position.enter_value_gross - c2position.enter_fees_total :=
  ⟨(update_from_fill_balance_deltas natStatUpdate "eng").1 sampleBalance
      (mkSamplePosition "s2" Side.Buy 1 100 3),
   (update_from_fill_balance_deltas natStatUpdate "eng").2.1 cExitRepo cExitFill
      cExitResult.fst cExitResult.snd { time := 0, total := 200, available := 97 }
      cExitBalanceAfter rfl rfl rfl rfl,
   (update_from_fill_balance_deltas natStatUpdate "eng").2.2 c2repo c2fill
      c2result.fst c2result.snd sampleBalance c2balanceAfter c2position
      rfl rfl rfl rfl rfl⟩

/-- C7 — every successful `update_from_fill` returns its events with all
`PositionNew` / `PositionExit` events first and exactly one `Balance`
event as the last element. -/
theorem update_from_fill_events_order {S : Type} (statUpdate : S → Position → S)
    (engine_id : String) (repo : InMemoryRepository S) (fill : FillEvent)
    (evs : List Event) (repo' : InMemoryRepository S)
    (hok : updateFromFill statUpdate engine_id repo fill = .ok (evs, repo')) :
    eventsWellOrdered evs = true := by
  cases hb : repo.get_balance engine_id with
  | none =>
      simp only [updateFromFill, hb] at hok
      cases hok
  | some b =>
      by_cases hent : fill.decision.is_entry = true
      · obtain ⟨p, hp, hevs, hrepo'⟩ :=
          updateFromFill_entry_inv statUpdate engine_id repo fill evs repo' b
            hent hb hok
        subst hevs
        rfl
      · have hexi : fill.decision.is_exit = true := by
          cases hfd : fill.decision <;>
            simp [Decision.is_exit, Decision.is_entry, hfd] at hent ⊢
        obtain ⟨evs0, bf, rf, hrec, hevs, -⟩ :=
          updateFromFill_exit_inv statUpdate engine_id repo fill evs repo' b
            hexi hb hok
        subst hevs
        exact eventsWellOrdered_append evs0 bf
          (processExits_ok_shape statUpdate engine_id
            (mkMarketId fill.exchange fill.instrument) fill _ _ _ _ _ _ hrec).1

/-- C7 witness: the concrete exit run emits `[PositionExit, Balance]`. -/
theorem update_from_fill_events_order_witness :
    eventsWellOrdered cExitResult.fst = true :=
  update_from_fill_events_order natStatUpdate "eng" cExitRepo cExitFill
    cExitResult.fst cExitResult.snd rfl

/-- C6 counterexample — with two open positions on the instrument, the
first on side Buy and the second on side Sell, a `Long` entry fill finds
an open position on the opposite side, yet `update_from_fill` does not
return `ExistingOppositePosition` (it only inspects the first position of
the list). -/
theorem update_from_fill_opposite_side_cex :
    ((c6repo.get_open_instrument_positions
        (determine_instrument_id "eng" c6fill.exchange c6fill.instrument)).any
      (fun p => p.side == Side.Sell)) = true ∧
    c6fill.decision = Decision.Long ∧
    updateFromFill natStatUpdate "eng" c6repo c6fill
      ≠ .error PortfolioError.ExistingOppositePosition := by
  refine ⟨by decide, rfl, ?_⟩
  intro h
  rw [show updateFromFill natStatUpdate "eng" c6repo c6fill
      = .ok (c6result.fst, c6result.snd) from rfl] at h
  cases h

/-- C6 (amended) — if the FIRST open position returned by the repository
for the fill's instrument is on the opposite side of an entry fill,
`update_from_fill` fails with `ExistingOppositePosition`; the error
return carries no events and no repository change (the model returns a
new repository only on success, mirroring the Rust, whose only writes —
`set_open_position` and `set_balance` — come after this check). -/
theorem update_from_fill_first_opposite_errors {S : Type}
    (statUpdate : S → Position → S) (engine_id : String)
    (repo : InMemoryRepository S) (fill : FillEvent) (b : Balance) (p : Position)
    (hbal : repo.get_balance engine_id = some b)
    (hhead : (repo.get_open_instrument_positions
        (determine_instrument_id engine_id fill.exchange fill.instrument)).head?
      = some p)
    (hopp : (p.side = Side.Sell ∧ fill.decision = Decision.Long)
        ∨ (p.side = Side.Buy ∧ fill.decision = Decision.Short)) :
    updateFromFill statUpdate engine_id repo fill
      = .error PortfolioError.ExistingOppositePosition := by
  rcases hopp with ⟨hs, hd⟩ | ⟨hs, hd⟩ <;>
    simp [updateFromFill, hbal, hd, hhead, hs]

/-- C6 witness: a single open Sell position and a direct `Long` fill. -/
theorem update_from_fill_first_opposite_errors_witness :
    updateFromFill natStatUpdate "eng" c6wrepo c6fill
      = .error PortfolioError.ExistingOppositePosition :=
  update_from_fill_first_opposite_errors natStatUpdate "eng" c6wrepo c6fill
    sampleBalance (mkSamplePosition "ss" Side.Sell (-1) 100 3)
    rfl rfl (Or.inl ⟨rfl, rfl⟩)

/-- C10 — a forced-exit token for an instrument with no open positions
produces `Ok` with an empty vector and an unchanged repository, whereas
`update_from_fill` on an exit fill for the same un-open instrument hits
the `unreachable!` panic. -/
theorem generate_exit_instrument_order_empty {S : Type}
    (statUpdate : S → Position → S) (engine_id : String) (now : Int)
    (repo : InMemoryRepository S) (sig : SignalInstrumentPositionsExit)
    (hpos : repo.get_open_instrument_positions
        (determine_instrument_id engine_id sig.force_exit.exchange
          sig.force_exit.instrument) = []) :
    generateExitInstrumentOrder engine_id now repo sig = .ok ([], repo) ∧
      ∀ (fill : FillEvent) (b : Balance),
        fill.decision.is_exit = true →
        fill.exchange = sig.force_exit.exchange →
        fill.instrument = sig.force_exit.instrument →
        repo.get_balance engine_id = some b →
        updateFromFill statUpdate engine_id repo fill
          = .error PortfolioError.panicUnreachable := by
  constructor
  · simp [generateExitInstrumentOrder, hpos]
  · intro fill b hexit hex hin hbal
    have hremoved : (repo.remove_instrument_positions
        (determine_instrument_id engine_id fill.exchange fill.instrument)).fst
          = [] := by
      rw [remove_instrument_positions_fst, hex, hin, hpos]
    cases hfd : fill.decision
    case Long => simp [hfd, Decision.is_exit] at hexit
    case Short => simp [hfd, Decision.is_exit] at hexit
    all_goals simp [updateFromFill, hbal, hfd, hremoved]

/-- C10 witness: concrete funded repository with no open positions. -/
theorem generate_exit_instrument_order_empty_witness :
    generateExitInstrumentOrder "eng" 0 c10repo c10sig = .ok ([], c10repo) ∧
      updateFromFill natStatUpdate "eng" c10repo c10fill
        = .error PortfolioError.panicUnreachable := by
  have h := generate_exit_instrument_order_empty natStatUpdate "eng" 0 c10repo
    c10sig rfl
  exact ⟨h.1, h.2 c10fill sampleBalance rfl rfl rfl rfl⟩

/-- C8 — the redis backend stores a position at
`"<instrument_id>_<signal_id>"`, but `get_open_instrument_positions`
passes the bare instrument id to `KEYS` with no glob wildcard appended,
so the lookup matches only a key exactly equal to the instrument id and
finds none of the stored positions: at the concrete failing input the
result is `Ok([])` instead of a list containing the stored position. -/
theorem redis_get_open_instrument_positions_misses_stored :
    redis_set_open_position [] c8pos
        = [(c8pos.instrument_id ++ "_" ++ c8pos.signal_id, RedisValue.str c8pos)] ∧
      redis_get_open_instrument_positions (redis_set_open_position [] c8pos)
        c8pos.instrument_id = .ok [] := by
  constructor
  · rfl
  · rfl

/-- C9 — the in-memory backend satisfies the append law:
`get_exited_positions` after `set_exited_position` returns the previous
list with the position appended.  The redis backend does not: its
`set_exited_position` is an `LPUSH` onto a Redis list, while
`get_exited_positions` reads the same key with `GET`, whose WRONGTYPE
failure on a list key is converted to an empty result; at the concrete
failing input the read after a successful write returns `Ok([])`. -/
theorem exited_positions_append_in_memory_but_dropped_in_redis :
    (∀ (S : Type) (repo : InMemoryRepository S) (engine_id : String) (p : Position),
        (repo.set_exited_position engine_id p).get_exited_positions engine_id
          = repo.get_exited_positions engine_id ++ [p]) ∧
      redis_set_exited_position [] "eng9" c9pos = .ok c9store ∧
      redis_get_exited_positions c9store "eng9" = .ok [] := by
  refine ⟨?_, rfl, rfl⟩
  intro S repo engine_id p
  cases h : alGet repo.closed_positions (determine_exited_positions_id engine_id) with
  | none =>
      simp [InMemoryRepository.set_exited_position,
        InMemoryRepository.get_exited_positions, h, alGet_alSet_self]
  | some closed =>
      simp [InMemoryRepository.set_exited_position,
        InMemoryRepository.get_exited_positions, h, alGet_alSet_self]

end Barter
